import Mathlib

/-!
# Chickadee: file iterator accessors, spinlocks, reference-counted handles, dprintf

A shallow embedding of `k-chkfsiter.hh` (the inline accessors of
`chkfs_fileiter`), `k-lock.hh` (`irqstate`, `spinlock`, `spinlock_guard`,
`ref_ptr`) and `u-lib.cc` (`dprintf`, `printf`), followed by the theorems
that settle the properties stated about them.

Machine integers are natural numbers; every place where the C++ code
truncates or wraps carries an explicit `% 2 ^ w`.
-/

namespace chkfs

/-- Modelled from the spec: `chkfs::blocksize`, declared in `k-chkfs.hh`
(not among the sources); the spec fixes the block size at 4096 bytes. -/
def blocksize : Nat := 4096

/-- Modelled from the spec: `chkfs::extent`, declared in `k-chkfs.hh` (not
among the sources): a pair of unsigned 32-bit numbers, the first block of
the extent and the number of blocks in it. -/
structure extent where
  first : Nat
  count : Nat
deriving DecidableEq, Repr

/-- The two fields of an extent are unsigned 32-bit numbers. -/
def extent.wf (e : extent) : Prop := e.first < 2 ^ 32 ∧ e.count < 2 ^ 32

instance (e : extent) : Decidable e.wf := by
  unfold extent.wf; infer_instance

/-- Modelled from the spec: `chkfs::inode`, declared in `k-chkfs.hh` (not
among the sources): file size, the direct extent table and the number of
the indirect extent block. The table `direct` has `ndirect = nd + 1`
entries; it is never empty, since the iterator's constructor takes the
address of `direct[0]`. -/
structure inode (nd : Nat) where
  size : Nat
  direct : Fin (nd + 1) → extent
  indirect : Nat

end chkfs

open chkfs

/-- Subtraction of two `size_t` values (64-bit, wrapping). -/
def sub64 (a b : Nat) : Nat := (a % 2 ^ 64 + 2 ^ 64 - b % 2 ^ 64) % 2 ^ 64

/-- The private state of `chkfs_fileiter`. `eptr_` is the extent descriptor
that the pointer `eptr_` refers to (`none` for `nullptr`); `indirect_slot_`
is the block number pinned by the `bcref` (`none` for an empty handle). -/
structure chkfs_fileiter (nd : Nat) where
  ino_ : inode nd
  off_ : Nat := 0
  eoff_ : Nat := 0
  eidx_ : Nat := 0
  eptr_ : Option extent
  indirect_slot_ : Option Nat := none

namespace chkfs_fileiter

variable {nd : Nat}

/-- The fields `off_` and `eoff_` are `size_t` values and the descriptor
behind `eptr_` is a pair of 32-bit numbers. -/
def wf (it : chkfs_fileiter nd) : Prop :=
  it.off_ < 2 ^ 64 ∧ it.eoff_ < 2 ^ 64 ∧
    match it.eptr_ with
    | none => True
    | some e => e.wf

instance (it : chkfs_fileiter nd) : Decidable it.wf := by
  unfold wf; cases it.eptr_ <;> infer_instance

/-- The constructor `chkfs_fileiter(ino, off)`. `ino = none` is a null
pointer, on which `assert(ino_)` fails (`none`). `find` is defined in
`k-chkfsiter.cc`, which is not among the sources, and is a parameter. -/
def new (find : chkfs_fileiter nd → Int → chkfs_fileiter nd)
    (ino : Option (inode nd)) (off : Int) : Option (chkfs_fileiter nd) :=
  match ino with
  | none => none
  | some i =>
    let it : chkfs_fileiter nd := { ino_ := i, eptr_ := some (i.direct 0) }
    if off ≠ 0 then some (find it off) else some it

/-- The accessor `inode()`. -/
def inode (it : chkfs_fileiter nd) : chkfs.inode nd := it.ino_

/-- The accessor `offset()`: `off_` converted from `size_t` to the signed
64-bit `off_t`. -/
def offset (it : chkfs_fileiter nd) : Int :=
  if it.off_ % 2 ^ 64 < 2 ^ 63 then (it.off_ % 2 ^ 64 : Nat)
  else ((it.off_ % 2 ^ 64 : Nat) : Int) - 2 ^ 64

/-- The accessor `active()`: `eptr_ && eptr_->count != 0`. -/
def active (it : chkfs_fileiter nd) : Bool :=
  match it.eptr_ with
  | none => false
  | some e => e.count != 0

/-- The accessor `block_relative_offset()`: `off_ % blocksize`, converted
from `size_t` to the 32-bit `unsigned`. -/
def block_relative_offset (it : chkfs_fileiter nd) : Nat :=
  (it.off_ % blocksize) % 2 ^ 32

/-- The accessor `empty()`: `!eptr_ || eptr_->first == 0`. -/
def empty (it : chkfs_fileiter nd) : Bool :=
  match it.eptr_ with
  | none => true
  | some e => e.first == 0

/-- The accessor `blocknum()`. The sum is computed in `size_t` and the
result is converted to `blocknum_t`, an unsigned 32-bit number. When `empty()` is false
`eptr_` is not null, so the `none` branch of the inner match is never
taken. -/
def blocknum (it : chkfs_fileiter nd) : Nat :=
  if !it.empty then
    match it.eptr_ with
    | some e => ((e.first + sub64 it.off_ it.eoff_ / blocksize) % 2 ^ 64) % 2 ^ 32
    | none => 0
  else
    0

/-- The accessor `load()`. `bc` is `bufcache::get().load`, defined outside
the sources: it returns a handle or nothing (`none`, the empty `bcref`).
The second component lists the block numbers requested from the cache. -/
def load (bc : Nat → Option Nat) (it : chkfs_fileiter nd) : Option Nat × List Nat :=
  let bn := it.blocknum
  if bn ≠ 0 then (bc bn, [bn]) else (none, [])

end chkfs_fileiter

/-! ## `k-lock.hh`: interrupt state and spinlocks -/

/-- Modelled from the spec: the constant `EFLAGS_IF` of `x86-64.h` (not
among the sources), the bit of the flags register that says whether local
interrupts are enabled; on x86-64 it is bit 9. -/
def EFLAGS_IF : Nat := 0x200

/-- The part of one CPU's state that the lock code reads and writes: the
flags register and the per-CPU spinlock depth. -/
structure cpustate where
  eflags : Nat
  spinlock_depth_ : Int
deriving DecidableEq, Repr

/-- Whether the CPU accepts interrupts: bit `EFLAGS_IF` of the flags
register. -/
def cpustate.interrupts_enabled (c : cpustate) : Bool :=
  c.eflags &&& EFLAGS_IF != 0

/-- Modelled from the spec: `rdeflags()` of `x86-64.h` (not among the
sources), which reads the interrupt state: the value of the flags
register. -/
def rdeflags (c : cpustate) : Nat := c.eflags

/-- Modelled from the spec: `cli()` of `x86-64.h` (not among the sources),
which disables local interrupts: it clears the interrupt-enable bit. -/
def cli (c : cpustate) : cpustate :=
  { c with eflags := c.eflags ^^^ (c.eflags &&& EFLAGS_IF) }

/-- Modelled from the spec: `sti()` of `x86-64.h` (not among the sources),
which enables local interrupts: it sets the interrupt-enable bit. -/
def sti (c : cpustate) : cpustate :=
  { c with eflags := c.eflags ||| EFLAGS_IF }

/-- Modelled from the spec: `adjust_this_cpu_spinlock_depth(delta)`, which
`k-lock.hh` only declares; lock nesting is tracked per CPU, so it adds
`delta` to the depth counter of the current CPU. -/
def adjust_this_cpu_spinlock_depth (delta : Int) (c : cpustate) : cpustate :=
  { c with spinlock_depth_ := c.spinlock_depth_ + delta }

/-- The ways in which the modelled code fails to return normally. -/
inductive fault where
  | assert_flags_zero      -- `assert(flags_ == 0)` in `irqstate::operator=`
  | forgot_to_unlock       -- `assert(!flags_)` in `~irqstate`
  | assert_locked          -- `assert(locked_)` in `spinlock_guard::unlock`
  | assert_not_locked      -- `assert(!locked_)` in `spinlock_guard::lock`
  | spin                   -- the loop of `lock_noirq` did not end within the fuel
deriving DecidableEq, Repr

/-- The struct `irqstate`: a saved copy of the flags register. -/
structure irqstate where
  flags_ : Nat := 0
deriving DecidableEq, Repr

namespace irqstate

/-- The static function `irqstate::get()`. -/
def get (c : cpustate) : irqstate := { flags_ := rdeflags c }

/-- The function `irqstate::restore()`. -/
def restore (s : irqstate) (c : cpustate) : irqstate × cpustate :=
  let c1 := if s.flags_ &&& EFLAGS_IF != 0 then sti c else c
  ({ flags_ := 0 }, c1)

/-- The function `irqstate::clear()`. -/
def clear (_s : irqstate) : irqstate := { flags_ := 0 }

/-- The move assignment `operator=(irqstate&& s)`; returns the new values
of the target and of the source. -/
def assign (self s : irqstate) : Except fault (irqstate × irqstate) :=
  if self.flags_ = 0 then .ok ({ flags_ := s.flags_ }, { flags_ := 0 })
  else .error .assert_flags_zero

/-- The destructor `~irqstate()`. -/
def destroy (self : irqstate) : Except fault Unit :=
  if self.flags_ = 0 then .ok () else .error .forgot_to_unlock

end irqstate

/-- The struct `spinlock`: the atomic flag `f_`. -/
structure spinlock where
  f_ : Bool := false
deriving DecidableEq, Repr

namespace spinlock

/-- The function `lock_noirq()` on one CPU with interrupts off: nothing
else runs while it spins, so the flag it tests never changes. `fuel`
bounds the number of `test_and_set` calls; with none left the result is
`none`. -/
def lock_noirq : Nat → spinlock → Option spinlock
  | 0, _ => none
  | fuel + 1, l => if l.f_ then lock_noirq fuel { f_ := true } else some { f_ := true }

/-- The function `trylock_noirq()`: `!f_.test_and_set()` and the new flag. -/
def trylock_noirq (l : spinlock) : Bool × spinlock := (!l.f_, { f_ := true })

/-- The function `unlock_noirq()`. -/
def unlock_noirq (_l : spinlock) : spinlock := { f_ := false }

/-- The function `is_locked()`. -/
def is_locked (l : spinlock) : Bool := l.f_

/-- The function `spinlock::lock()`. -/
def lock (fuel : Nat) (l : spinlock) (c : cpustate) :
    Except fault (irqstate × spinlock × cpustate) :=
  let irqs := irqstate.get c
  let c1 := cli c
  match l.lock_noirq fuel with
  | none => .error .spin
  | some l1 => .ok (irqs, l1, adjust_this_cpu_spinlock_depth 1 c1)

/-- The function `spinlock::trylock(irqs)`. -/
def trylock (l : spinlock) (irqs : irqstate) (c : cpustate) :
    Except fault (Bool × irqstate × spinlock × cpustate) :=
  match irqs.assign (irqstate.get c) with
  | .error e => .error e
  | .ok (irqs1, _) =>
    let c1 := cli c
    let (r, l1) := l.trylock_noirq
    if r then .ok (r, irqs1, l1, adjust_this_cpu_spinlock_depth 1 c1)
    else
      let (irqs2, c2) := irqs1.restore c1
      .ok (r, irqs2, l1, c2)

/-- The function `spinlock::unlock(irqs)`. -/
def unlock (l : spinlock) (irqs : irqstate) (c : cpustate) :
    irqstate × spinlock × cpustate :=
  let c1 := adjust_this_cpu_spinlock_depth (-1) c
  let l1 := l.unlock_noirq
  let (irqs1, c2) := irqs.restore c1
  (irqs1, l1, c2)

end spinlock

/-- The struct `spinlock_guard`; the spinlock `lock_` it refers to is
passed to each operation. -/
structure spinlock_guard where
  irqs_ : irqstate
  locked_ : Bool
deriving DecidableEq, Repr

namespace spinlock_guard

/-- The constructor `spinlock_guard(lock)`. -/
def new (fuel : Nat) (l : spinlock) (c : cpustate) :
    Except fault (spinlock_guard × spinlock × cpustate) :=
  match l.lock fuel c with
  | .error e => .error e
  | .ok (irqs, l1, c1) => .ok ({ irqs_ := irqs, locked_ := true }, l1, c1)

/-- The function `spinlock_guard::unlock()`. -/
def unlock (g : spinlock_guard) (l : spinlock) (c : cpustate) :
    Except fault (spinlock_guard × spinlock × cpustate) :=
  if g.locked_ then
    let (irqs, l1, c1) := l.unlock g.irqs_ c
    .ok ({ irqs_ := irqs, locked_ := false }, l1, c1)
  else .error .assert_locked

/-- The function `spinlock_guard::lock()`: the temporary returned by
`lock_.lock()` is move-assigned to `irqs_` and then destroyed. -/
def lock (fuel : Nat) (g : spinlock_guard) (l : spinlock) (c : cpustate) :
    Except fault (spinlock_guard × spinlock × cpustate) :=
  if !g.locked_ then
    match l.lock fuel c with
    | .error e => .error e
    | .ok (tmp, l1, c1) =>
      match g.irqs_.assign tmp with
      | .error e => .error e
      | .ok (irqs, tmp1) =>
        match tmp1.destroy with
        | .error e => .error e
        | .ok _ => .ok ({ irqs_ := irqs, locked_ := true }, l1, c1)
  else .error .assert_not_locked

/-- The destructor `~spinlock_guard()`, followed by the destructor of the
member `irqs_`. -/
def destroy (g : spinlock_guard) (l : spinlock) (c : cpustate) :
    Except fault (spinlock × cpustate) :=
  let r := if g.locked_ then l.unlock g.irqs_ c else (g.irqs_, l, c)
  match r.1.destroy with
  | .error e => .error e
  | .ok _ => .ok r.2

end spinlock_guard

/-- An operation on a `spinlock_guard` after its construction. -/
inductive guard_op where
  | unlock
  | lock
deriving DecidableEq, Repr

namespace spinlock_guard

/-- Executes one operation on the guard `s.1` of the spinlock `s.2.1`. -/
def step (fuel : Nat) (op : guard_op) (s : spinlock_guard × spinlock × cpustate) :
    Except fault (spinlock_guard × spinlock × cpustate) :=
  match op with
  | .unlock => s.1.unlock s.2.1 s.2.2
  | .lock => s.1.lock fuel s.2.1 s.2.2

/-- Executes the operations `ops` in order; stops at the first fault. -/
def run (fuel : Nat) :
    List guard_op → spinlock_guard × spinlock × cpustate →
      Except fault (spinlock_guard × spinlock × cpustate)
  | [], s => .ok s
  | op :: ops, s =>
    match step fuel op s with
    | .error e => .error e
    | .ok s1 => run fuel ops s1

/-- Constructs a guard on spinlock `l`, then executes `ops` on it. -/
def new_then_run (fuel : Nat) (l : spinlock) (c : cpustate) (ops : List guard_op) :
    Except fault (spinlock_guard × spinlock × cpustate) :=
  match new fuel l c with
  | .error e => .error e
  | .ok s => run fuel ops s

end spinlock_guard

/-- The operations `ops` respect the preconditions of the guard, whose
`locked_` flag is `locked` at the start: `unlock()` is called only while the
guard is locked and `lock()` only while it is unlocked. -/
def guard_valid : Bool → List guard_op → Bool
  | _, [] => true
  | true, .unlock :: ops => guard_valid false ops
  | false, .lock :: ops => guard_valid true ops
  | true, .lock :: _ => false
  | false, .unlock :: _ => false

/-- The relation between a guard, its spinlock and the CPU that holds
between the operations on the guard, where `c0` is the CPU state before the
guard was constructed: a locked guard holds the lock and keeps the flags of
`c0`; an unlocked guard has released the lock, its `irqs_` is clear and the
CPU is back in state `c0`. -/
def guard_inv (c0 : cpustate) (s : spinlock_guard × spinlock × cpustate) : Prop :=
  if s.1.locked_ then
    s.2.1.f_ = true ∧ s.1.irqs_ = irqstate.get c0 ∧
      s.2.2 = adjust_this_cpu_spinlock_depth 1 (cli c0)
  else
    s.2.1.f_ = false ∧ s.1.irqs_.flags_ = 0 ∧ s.2.2 = c0

/-! ## Sequences of `lock()` and `unlock()` calls on several spinlocks -/

/-- One CPU together with the spinlocks it uses: `locks l` is spinlock `l`
and `irqs l` is the `irqstate` variable that receives the result of
`lock()` on spinlock `l` and is later passed to `unlock()` of it. -/
structure kstate where
  cpu : cpustate
  locks : Nat → spinlock
  irqs : Nat → irqstate

/-- A call made by the CPU: `locks[l].lock()` or `locks[l].unlock(irqs[l])`. -/
inductive lock_op where
  | lock (l : Nat)
  | unlock (l : Nat)
deriving DecidableEq, Repr

namespace kstate

/-- Executes one call. A `lock()` that never returns is a `fault.spin`. -/
def step (fuel : Nat) (s : kstate) : lock_op → Except fault kstate
  | .lock l =>
    match (s.locks l).lock fuel s.cpu with
    | .error e => .error e
    | .ok (i, sl, c) =>
      .ok { cpu := c, locks := Function.update s.locks l sl, irqs := Function.update s.irqs l i }
  | .unlock l =>
    let (i, sl, c) := (s.locks l).unlock (s.irqs l) s.cpu
    .ok { cpu := c, locks := Function.update s.locks l sl, irqs := Function.update s.irqs l i }

/-- The states the CPU goes through while it executes the calls `ops` from
state `s`: `s` itself, then the state after each call that returns. -/
def trace (fuel : Nat) : kstate → List lock_op → List kstate
  | s, [] => [s]
  | s, op :: ops =>
    s :: (match s.step fuel op with
          | .ok s1 => trace fuel s1 ops
          | .error _ => [])

end kstate

/-- Every `unlock` in `ops` releases a spinlock that is held (`held` lists
the spinlocks held so far), and a spinlock is locked only while it is not
held; the order of the releases is free. -/
def balanced : List Nat → List lock_op → Bool
  | _, [] => true
  | held, .lock l :: ops => !held.contains l && balanced (l :: held) ops
  | held, .unlock l :: ops => held.contains l && balanced (held.erase l) ops

/-- The calls `ops` are balanced and release the outermost spinlock last.
`outer` is the outermost spinlock held (the one acquired at depth 0, `none`
when nothing is held) and `inner` lists the other spinlocks held. A
spinlock is locked only while it is not held, an inner spinlock may be
released at any time, and the outermost one only when no inner spinlock is
held. -/
def outer_last : Option Nat → List Nat → List lock_op → Bool
  | _, _, [] => true
  | none, _, .lock l :: ops => outer_last (some l) [] ops
  | none, _, .unlock _ :: _ => false
  | some o, inner, .lock l :: ops =>
    l != o && !inner.contains l && outer_last (some o) (l :: inner) ops
  | some o, inner, .unlock l :: ops =>
    if inner.contains l then outer_last (some o) (inner.erase l) ops
    else l == o && inner.isEmpty && outer_last none [] ops

/-- The relation between the spinlocks held (`outer` and `inner` as in
`outer_last`) and the state, kept by calls that release the outermost
spinlock last: the depth is the number of spinlocks held, exactly those
spinlocks are locked, interrupts are off while a spinlock is held, and the
flags saved for the inner spinlocks have the interrupt-enable bit clear. -/
def outer_inv : Option Nat → List Nat → kstate → Prop
  | none, _, s => s.cpu.spinlock_depth_ = 0 ∧ ∀ l, (s.locks l).f_ = false
  | some o, inner, s =>
    s.cpu.spinlock_depth_ = inner.length + 1 ∧
    (∀ l, (s.locks l).f_ = true ↔ (l = o ∨ l ∈ inner)) ∧
    o ∉ inner ∧ inner.Nodup ∧
    s.cpu.interrupts_enabled = false ∧
    ∀ l ∈ inner, ((s.irqs l).flags_ &&& EFLAGS_IF != 0) = false

/-! ## `k-lock.hh`: `ref_ptr` -/

/-- Objects with a reference count, and the `ref_ptr` handles to them.
Objects are named by their address; `refcount p` is the reference count of
the object at `p`. Handle `h` is entry `h` of `e_`, the value of its member
`e_` (`none` for `nullptr`); a destroyed handle stays in the list as `none`,
so it points at no object. -/
structure ref_heap where
  refcount : Nat → Int
  e_ : List (Option Nat)

/-- Modelled from the spec: `T::decrement_reference_count()` of the object
at `p`; `T` is a template parameter, and a handle drop decrements the
reference count. -/
def decrement_reference_count (p : Nat) (rc : Nat → Int) : Nat → Int :=
  Function.update rc p (rc p - 1)

namespace ref_ptr

/-- The function `reset(x)` on handle `h`. -/
def reset (h : Nat) (x : Option Nat) (s : ref_heap) : ref_heap :=
  match s.e_[h]? with
  | none => s
  | some e =>
    let rc := match e with
      | some p => decrement_reference_count p s.refcount
      | none => s.refcount
    { refcount := rc, e_ := s.e_.set h x }

/-- The destructor `~ref_ptr()` of handle `h`. -/
def destroy (h : Nat) (s : ref_heap) : ref_heap := reset h none s

/-- The constructor `ref_ptr()`: a new empty handle. -/
def new_empty (s : ref_heap) : ref_heap := { s with e_ := s.e_ ++ [none] }

/-- The constructor `ref_ptr(T* e)`: a new handle that takes over `e`. -/
def new_from (e : Option Nat) (s : ref_heap) : ref_heap := { s with e_ := s.e_ ++ [e] }

/-- The move constructor `ref_ptr(ref_ptr<T>&& x)`: a new handle made from
handle `x`. -/
def move_construct (x : Nat) (s : ref_heap) : ref_heap :=
  match s.e_[x]? with
  | none => s
  | some xe => { s with e_ := (s.e_.set x none) ++ [xe] }

/-- The function `get()` of handle `h`. -/
def get (h : Nat) (s : ref_heap) : Option Nat := (s.e_[h]?).join

/-- The function `release()` of handle `h`: the pointer held and the new
heap. -/
def release (h : Nat) (s : ref_heap) : Option Nat × ref_heap :=
  ((s.e_[h]?).join, { s with e_ := s.e_.set h none })

/-- The move assignment `operator=(ref_ptr<T>&& x)` on handle `self`. -/
def move_assign (self x : Nat) (s : ref_heap) : ref_heap :=
  match s.e_[self]?, s.e_[x]? with
  | some e, some xe =>
    if xe ≠ e then
      let s1 := reset self xe s
      { s1 with e_ := s1.e_.set x none }
    else s
  | _, _ => s

end ref_ptr

/-- The number of handles that point at object `p`. -/
def ref_heap.handles (s : ref_heap) (p : Nat) : Nat := s.e_.count (some p)

/-- The reference count of `p` minus the number of handles that point at
`p`: the references to `p` that no handle accounts for. -/
def ref_heap.excess (s : ref_heap) (p : Nat) : Int := s.refcount p - s.handles p

/-! ## `u-lib.cc`: `dprintf` and `printf` -/

/-- A call of `sys_write(fd, buf, sz)`; `buf` is the content of the buffer
that is passed. -/
structure write_call where
  fd : Int
  buf : List Nat
  sz : Nat
deriving DecidableEq, Repr

/-- Conversion of an `int` to `size_t`. -/
def size_t_of_int (r : Int) : Nat := (r % 2 ^ 64).toNat

/-- Conversion of a 64-bit signed value (`ssize_t`) to the 32-bit signed
`int`: the value is reduced modulo `2^32` into the range from `-2^31` up to
`2^31 - 1`. -/
def int_of_ssize_t (r : Int) : Int := (r + 2 ^ 31) % 2 ^ 32 - 2 ^ 31

section printf

variable {α : Type}

/-- The function `dprintf(fd, format, ...)`. `args` stands for the format
and its arguments. `vsnprintf size args` gives the content of `buf` after
the call and the `int` it returns; `sys_write` gives the result of the
system call, an `ssize_t`; both are defined outside the sources, as is the
constant `E_2BIG`. The function is declared `int`, so the value of either
`return` is converted to `int`. The result is the value returned and the
calls of `sys_write` made. -/
def dprintf (E_2BIG : Int) (vsnprintf : Nat → α → List Nat × Int)
    (sys_write : Int → List Nat → Nat → Int) (fd : Int) (args : α) :
    Int × List write_call :=
  let (buf, r) := vsnprintf 513 args
  let n := size_t_of_int r
  if n < 513 then
    (int_of_ssize_t (sys_write fd buf n), [{ fd := fd, buf := buf, sz := n }])
  else (int_of_ssize_t E_2BIG, [])

/-- The function `printf(format, ...)`; the parameters are those of
`dprintf`. -/
def printf (E_2BIG : Int) (vsnprintf : Nat → α → List Nat × Int)
    (sys_write : Int → List Nat → Nat → Int) (args : α) :
    Int × List write_call :=
  let (buf, r) := vsnprintf 513 args
  let n := size_t_of_int r
  if n < 513 then
    (int_of_ssize_t (sys_write 1 buf n), [{ fd := 1, buf := buf, sz := n }])
  else (int_of_ssize_t E_2BIG, [])

end printf

/-! ## Concrete inodes and iterator states (the scenarios of the spec) -/

/-- Scenario S1: direct extents `[(100,1)]`. -/
def inoS1 : inode 4 where
  size := 4096
  direct := ![⟨100, 1⟩, ⟨0, 0⟩, ⟨0, 0⟩, ⟨0, 0⟩, ⟨0, 0⟩]
  indirect := 0

/-- Scenario S2: direct extents `[(200,2),(210,1)]`. -/
def inoS2 : inode 4 where
  size := 12288
  direct := ![⟨200, 2⟩, ⟨210, 1⟩, ⟨0, 0⟩, ⟨0, 0⟩, ⟨0, 0⟩]
  indirect := 0

/-- Scenario S3: direct extents `[(0,3),(400,1)]`, a hole of three blocks
followed by one block. -/
def inoS3 : inode 4 where
  size := 16384
  direct := ![⟨0, 3⟩, ⟨400, 1⟩, ⟨0, 0⟩, ⟨0, 0⟩, ⟨0, 0⟩]
  indirect := 0

/-- An inode whose first extent `(4294967295, 2)` runs past the last 32-bit
block number. -/
def inoWrap : inode 4 where
  size := 8192
  direct := ![⟨4294967295, 2⟩, ⟨0, 0⟩, ⟨0, 0⟩, ⟨0, 0⟩, ⟨0, 0⟩]
  indirect := 0

/-- An inode whose first direct slot is unused (`count == 0`) but has a
non-zero `first`. -/
def inoStale : inode 4 where
  size := 0
  direct := ![⟨5, 0⟩, ⟨0, 0⟩, ⟨0, 0⟩, ⟨0, 0⟩, ⟨0, 0⟩]
  indirect := 0

/-- The iterator over `ino` at offset `off`, inside direct extent `i`, which
starts at file offset `eoff`. -/
def iter_at (ino : inode 4) (i : Fin 5) (eoff off : Nat) : chkfs_fileiter 4 :=
  { ino_ := ino, off_ := off, eoff_ := eoff, eidx_ := i, eptr_ := some (ino.direct i) }

/-- A stand-in for `find` that leaves the iterator as it is; the
constructor does not call `find` at offset 0. -/
def find_unused (it : chkfs_fileiter 4) (_off : Int) : chkfs_fileiter 4 := it

/-- A block cache whose `load` fails for every block (device error). -/
def bc_fail (_bn : Nat) : Option Nat := none

/-- A CPU with interrupts enabled (flags `0x202`) and spinlock depth 0. -/
def cpu_on : cpustate := { eflags := 0x202, spinlock_depth_ := 0 }

/-- A CPU with interrupts enabled and depth 0, all spinlocks free. -/
def kstate_init : kstate :=
  { cpu := cpu_on, locks := fun _ => { f_ := false }, irqs := fun _ => { flags_ := 0 } }

/-- An object at address 7 with reference count 2, two handles that hold
it and one empty handle. -/
def heap0 : ref_heap :=
  { refcount := fun p => if p = 7 then 2 else 0, e_ := [some 7, some 7, none] }

/-- A formatter for concrete runs: `text` is the fully formatted string;
like the C function, it stores at most `size - 1` bytes of it followed by a
terminator and returns the full length. -/
def vsnprintf_text (size : Nat) (text : List Nat) : List Nat × Int :=
  (text.take (size - 1) ++ [0], text.length)

/-- A `sys_write` for concrete runs that writes all `sz` bytes. -/
def sys_write_all (_fd : Int) (_buf : List Nat) (sz : Nat) : Int := sz

/-- A `sys_write` for concrete runs whose result, `2^32 + 5`, does not fit
in an `int`. -/
def sys_write_big (_fd : Int) (_buf : List Nat) (_sz : Nat) : Int := 4294967301

/-! # Theorems -/

/-! ## The file iterator -/

theorem sub64_eq {a b : Nat} (ha : a < 2 ^ 64) (hb : b ≤ a) : sub64 a b = a - b := by
  unfold sub64
  omega

theorem blocknum_some {nd : Nat} (it : chkfs_fileiter nd) (e : extent)
    (h : it.eptr_ = some e) :
    it.blocknum =
      if e.first = 0 then 0 else (e.first + sub64 it.off_ it.eoff_ / blocksize) % 2 ^ 32 := by
  unfold chkfs_fileiter.blocknum chkfs_fileiter.empty
  rw [h]
  by_cases hf : e.first = 0
  · simp [hf]
  · simp [hf]
    omega

theorem blocknum_none {nd : Nat} (it : chkfs_fileiter nd) (h : it.eptr_ = none) :
    it.blocknum = 0 := by
  unfold chkfs_fileiter.blocknum chkfs_fileiter.empty
  rw [h]
  simp

/-- C1 (as amended): when the offset lies inside an extent `(first, count)`
with `count >= 1`, `blocknum()` is `first + (off - eoff) / blocksize`
reduced modulo `2^32` if `first != 0` (exactly that number when
`first + count <= 2^32`), and `0` if `first == 0`, a hole. -/
theorem C1_blocknum_in_extent {nd : Nat} (it : chkfs_fileiter nd) (e : extent)
    (hwf : it.wf) (hp : it.eptr_ = some e) (_hc : 1 ≤ e.count)
    (hlo : it.eoff_ ≤ it.off_) (hhi : it.off_ < it.eoff_ + e.count * blocksize) :
    (e.first ≠ 0 →
        it.blocknum = (e.first + (it.off_ - it.eoff_) / blocksize) % 2 ^ 32) ∧
    (e.first ≠ 0 → e.first + e.count ≤ 2 ^ 32 →
        it.blocknum = e.first + (it.off_ - it.eoff_) / blocksize) ∧
    (e.first = 0 → it.blocknum = 0) := by
  have hsub : sub64 it.off_ it.eoff_ = it.off_ - it.eoff_ := sub64_eq hwf.1 hlo
  have hb := blocknum_some it e hp
  rw [hsub] at hb
  refine ⟨?_, ?_, ?_⟩
  · intro hf
    rw [hb, if_neg hf]
  · intro hf hfit
    rw [hb, if_neg hf]
    apply Nat.mod_eq_of_lt
    unfold blocksize at hhi ⊢
    omega
  · intro hf
    rw [hb, if_pos hf]

/-- Witness of C1 as amended, on scenario S2: offsets 0, 4096 and 8192 of
the extents `[(200,2),(210,1)]` give the blocks 200, 201 and 210. -/
theorem C1_blocknum_in_extent_witness :
    ((iter_at inoS2 0 0 0).wf ∧ (iter_at inoS2 0 0 4096).wf ∧ (iter_at inoS2 1 8192 8192).wf) ∧
    ((iter_at inoS2 0 0 0).blocknum = 200 + (0 - 0) / blocksize ∧
     (iter_at inoS2 0 0 4096).blocknum = 200 + (4096 - 0) / blocksize ∧
     (iter_at inoS2 1 8192 8192).blocknum = 210 + (8192 - 8192) / blocksize) ∧
    ((iter_at inoS2 0 0 0).blocknum = 200 ∧ (iter_at inoS2 0 0 4096).blocknum = 201 ∧
     (iter_at inoS2 1 8192 8192).blocknum = 210) :=
  ⟨by decide,
   ⟨(C1_blocknum_in_extent (iter_at inoS2 0 0 0) ⟨200, 2⟩ (by decide) rfl (by decide)
        (by decide) (by decide)).2.1 (by decide) (by decide),
    (C1_blocknum_in_extent (iter_at inoS2 0 0 4096) ⟨200, 2⟩ (by decide) rfl (by decide)
        (by decide) (by decide)).2.1 (by decide) (by decide),
    (C1_blocknum_in_extent (iter_at inoS2 1 8192 8192) ⟨210, 1⟩ (by decide) rfl (by decide)
        (by decide) (by decide)).2.1 (by decide) (by decide)⟩,
   by decide⟩

/-- C1 fails as stated. Inside the hole `(0,3)` of scenario S3, at offset
4096, `blocknum()` is 0 while `first + (off - eoff) / blocksize` is 1; and
inside the extent `(4294967295, 2)`, at offset 4096, `blocknum()` is 0 while
`first + (off - eoff) / blocksize` is 4294967296. -/
theorem C1_counterexample :
    ((iter_at inoS3 0 0 4096).wf ∧
      (iter_at inoS3 0 0 4096).eptr_ = some ⟨0, 3⟩ ∧
      (iter_at inoS3 0 0 4096).eoff_ ≤ (iter_at inoS3 0 0 4096).off_ ∧
      (iter_at inoS3 0 0 4096).off_ < (iter_at inoS3 0 0 4096).eoff_ + 3 * blocksize ∧
      (iter_at inoS3 0 0 4096).blocknum = 0 ∧
      0 + ((iter_at inoS3 0 0 4096).off_ - (iter_at inoS3 0 0 4096).eoff_) / blocksize = 1) ∧
    ((iter_at inoWrap 0 0 4096).wf ∧
      (iter_at inoWrap 0 0 4096).eptr_ = some ⟨4294967295, 2⟩ ∧
      (iter_at inoWrap 0 0 4096).eoff_ ≤ (iter_at inoWrap 0 0 4096).off_ ∧
      (iter_at inoWrap 0 0 4096).off_ < (iter_at inoWrap 0 0 4096).eoff_ + 2 * blocksize ∧
      (iter_at inoWrap 0 0 4096).blocknum = 0 ∧
      4294967295 + ((iter_at inoWrap 0 0 4096).off_ - (iter_at inoWrap 0 0 4096).eoff_) / blocksize
        = 4294967296) := by
  decide

/-- C4: `block_relative_offset()` is `off mod blocksize`, is smaller than
`blocksize`, and the conversion to the 32-bit `unsigned` loses nothing
(the value is below `2^32`); at offset 2000 it is 2000 and at offset 4096
it is 0. -/
theorem C4_block_relative_offset {nd : Nat} (it : chkfs_fileiter nd) :
    it.block_relative_offset = it.off_ % blocksize ∧
    it.block_relative_offset < blocksize ∧
    it.off_ % blocksize < 2 ^ 32 ∧
    blocksize = 4096 ∧
    ({ it with off_ := 2000 } : chkfs_fileiter nd).block_relative_offset = 2000 ∧
    ({ it with off_ := 4096 } : chkfs_fileiter nd).block_relative_offset = 0 := by
  unfold chkfs_fileiter.block_relative_offset blocksize
  refine ⟨?_, ?_, ?_, rfl, ?_, ?_⟩ <;> simp <;> omega

/-- C5: for every inode (whose slot `direct[0]` holds 32-bit numbers) the
iterator constructed at offset 0 has `offset() == 0` and
`block_relative_offset() == 0`, refers to `direct[0]` with `eoff == 0` and
`eidx == 0`, is `active()` iff `direct[0].count != 0`, and when
`direct[0].count >= 1` its `blocknum()` is `direct[0].first` and it is
`empty()` iff `direct[0].first == 0`. -/
theorem C5_construct_at_zero {nd : Nat}
    (find : chkfs_fileiter nd → Int → chkfs_fileiter nd) (ino : inode nd)
    (hwf : (ino.direct 0).wf) :
    ∃ it, chkfs_fileiter.new find (some ino) 0 = some it ∧
      it.inode = ino ∧ it.offset = 0 ∧ it.block_relative_offset = 0 ∧
      it.eptr_ = some (ino.direct 0) ∧ it.eoff_ = 0 ∧ it.eidx_ = 0 ∧
      (it.active = true ↔ (ino.direct 0).count ≠ 0) ∧
      (1 ≤ (ino.direct 0).count →
        it.blocknum = (ino.direct 0).first ∧
        (it.empty = true ↔ (ino.direct 0).first = 0)) := by
  refine ⟨{ ino_ := ino, eptr_ := some (ino.direct 0) }, ?_, rfl, ?_, ?_, rfl, rfl, rfl, ?_, ?_⟩
  · simp [chkfs_fileiter.new]
  · simp [chkfs_fileiter.offset]
  · simp [chkfs_fileiter.block_relative_offset]
  · simp [chkfs_fileiter.active]
  · intro _
    have hb := blocknum_some ({ ino_ := ino, eptr_ := some (ino.direct 0) } : chkfs_fileiter nd)
      (ino.direct 0) rfl
    have h0 : sub64 0 0 = 0 := by decide
    have hlt : (ino.direct 0).first < 2 ^ 32 := hwf.1
    refine ⟨?_, ?_⟩
    · rw [hb]
      simp only [h0, Nat.zero_div, Nat.add_zero]
      by_cases hf : (ino.direct 0).first = 0
      · simp [hf]
      · rw [if_neg hf]
        exact Nat.mod_eq_of_lt hlt
    · simp [chkfs_fileiter.empty]

/-- Witness of C5 on scenarios S1 and S3: `direct[0] = (100,1)` gives
`blocknum() == 100`; `direct[0] = (0,3)` gives an iterator that is active and
empty, with `blocknum() == 0`. -/
theorem C5_construct_at_zero_witness :
    ((inoS1.direct 0).wf ∧
      ∃ it, chkfs_fileiter.new find_unused (some inoS1) 0 = some it ∧
        it.inode = inoS1 ∧ it.offset = 0 ∧ it.block_relative_offset = 0 ∧
        it.eptr_ = some (inoS1.direct 0) ∧ it.eoff_ = 0 ∧ it.eidx_ = 0 ∧
        (it.active = true ↔ (inoS1.direct 0).count ≠ 0) ∧
        (1 ≤ (inoS1.direct 0).count →
          it.blocknum = (inoS1.direct 0).first ∧
          (it.empty = true ↔ (inoS1.direct 0).first = 0))) ∧
    (chkfs_fileiter.new find_unused (some inoS1) 0).map chkfs_fileiter.blocknum = some 100 ∧
    (chkfs_fileiter.new find_unused (some inoS3) 0).map
      (fun it => (it.active, it.empty, it.blocknum)) = some (true, true, 0) :=
  ⟨⟨by decide, C5_construct_at_zero find_unused inoS1 (by decide)⟩, by decide, by decide⟩

/-- C2 (as amended): `empty()` implies `blocknum() == 0`, and the converse
holds whenever `first + (off - eoff) / blocksize` stays below `2^32`;
`load()` asks the block cache for a block only when `blocknum()` is not 0,
then exactly once and for block `blocknum()`, and returns what the cache
returns, so it returns an empty handle iff `blocknum() == 0` or the cache
fails to load that block. -/
theorem C2_empty_blocknum_load {nd : Nat} (it : chkfs_fileiter nd) (bc : Nat → Option Nat) :
    (it.empty = true → it.blocknum = 0) ∧
    ((∀ e, it.eptr_ = some e → e.first + sub64 it.off_ it.eoff_ / blocksize < 2 ^ 32) →
        (it.empty = true ↔ it.blocknum = 0)) ∧
    (it.blocknum = 0 → it.load bc = (none, [])) ∧
    (it.blocknum ≠ 0 → it.load bc = (bc it.blocknum, [it.blocknum])) ∧
    ((it.load bc).1 = none ↔ (it.blocknum = 0 ∨ bc it.blocknum = none)) := by
  have hemp : it.empty = true → it.blocknum = 0 := by
    intro h
    simp [chkfs_fileiter.blocknum, h]
  refine ⟨hemp, ?_, ?_, ?_, ?_⟩
  · intro hnw
    refine ⟨hemp, ?_⟩
    intro hb
    cases hp : it.eptr_ with
    | none => simp [chkfs_fileiter.empty, hp]
    | some e =>
      have h1 := blocknum_some it e hp
      have h2 := hnw e hp
      by_cases hf : e.first = 0
      · simp [chkfs_fileiter.empty, hp, hf]
      · rw [if_neg hf, Nat.mod_eq_of_lt h2] at h1
        have h3 : 0 < it.blocknum := by
          rw [h1]
          exact Nat.add_pos_left (Nat.pos_of_ne_zero hf) _
        omega
  · intro hb
    simp [chkfs_fileiter.load, hb]
  · intro hb
    simp [chkfs_fileiter.load, hb]
  · by_cases hb : it.blocknum = 0
    · simp [chkfs_fileiter.load, hb]
    · simp [chkfs_fileiter.load, hb]

/-- Witness of C2 as amended, on scenario S1 at offset 0 with a block cache
that fails: the iterator is not empty, `blocknum()` is 100, and `load()`
asks once for block 100 and returns an empty handle. -/
theorem C2_empty_blocknum_load_witness :
    (∀ e, (iter_at inoS1 0 0 0).eptr_ = some e →
        e.first + sub64 (iter_at inoS1 0 0 0).off_ (iter_at inoS1 0 0 0).eoff_ / blocksize
          < 2 ^ 32) ∧
    ((iter_at inoS1 0 0 0).empty = true ↔ (iter_at inoS1 0 0 0).blocknum = 0) ∧
    (iter_at inoS1 0 0 0).blocknum = 100 ∧
    (iter_at inoS1 0 0 0).load bc_fail = (none, [100]) :=
  have h : ∀ e, (iter_at inoS1 0 0 0).eptr_ = some e →
      e.first + sub64 (iter_at inoS1 0 0 0).off_ (iter_at inoS1 0 0 0).eoff_ / blocksize
        < 2 ^ 32 := by
    intro e he
    have : e = ⟨100, 1⟩ := (Option.some.inj he).symm
    subst this
    decide
  ⟨h, (C2_empty_blocknum_load (iter_at inoS1 0 0 0) bc_fail).2.1 h, by decide, by decide⟩

/-- C2 fails as stated. Inside the extent `(4294967295, 2)`, at offset 4096,
`blocknum()` is 0 although `empty()` is false, and `load()` returns an empty
handle; and in scenario S1 at offset 0, with a block cache whose load
fails, `load()` returns an empty handle although `blocknum()` is 100 and
`empty()` is false. -/
theorem C2_counterexample :
    ((iter_at inoWrap 0 0 4096).wf ∧
      (iter_at inoWrap 0 0 4096).empty = false ∧
      (iter_at inoWrap 0 0 4096).blocknum = 0 ∧
      ((iter_at inoWrap 0 0 4096).load bc_fail).1 = none) ∧
    ((iter_at inoS1 0 0 0).wf ∧
      (iter_at inoS1 0 0 0).empty = false ∧
      (iter_at inoS1 0 0 0).blocknum = 100 ∧
      ((iter_at inoS1 0 0 0).load bc_fail).1 = none) := by
  decide

/-- C3, evaluation at the failing input: the iterator constructed at offset
0 over an inode whose slot `direct[0]` is `(5, 0)` is not `active()`, yet
`empty()` is false, `blocknum()` is 5 and `load()` asks the block cache for
block 5. -/
theorem C3_stale_slot_reports_block :
    chkfs_fileiter.new find_unused (some inoStale) 0 = some (iter_at inoStale 0 0 0) ∧
    (iter_at inoStale 0 0 0).wf ∧
    (iter_at inoStale 0 0 0).eptr_ = some ⟨5, 0⟩ ∧
    (iter_at inoStale 0 0 0).active = false ∧
    (iter_at inoStale 0 0 0).empty = false ∧
    (iter_at inoStale 0 0 0).blocknum = 5 ∧
    (iter_at inoStale 0 0 0).load bc_fail = (none, [5]) :=
  ⟨rfl, by decide, by decide, by decide, by decide, by decide, by decide⟩

/-! ## Interrupt state and spinlocks -/

theorem testBit_512 (i : Nat) : Nat.testBit 512 i = decide (9 = i) := by
  rw [show (512 : Nat) = 2 ^ 9 by norm_num]
  exact Nat.testBit_two_pow

theorem and_IF_eq_testBit (e : Nat) : (e &&& EFLAGS_IF != 0) = e.testBit 9 := by
  have h := Nat.and_two_pow e 9
  norm_num at h
  unfold EFLAGS_IF
  rw [h]
  cases e.testBit 9 <;> simp

theorem interrupts_enabled_eq (c : cpustate) : c.interrupts_enabled = c.eflags.testBit 9 :=
  and_IF_eq_testBit c.eflags

theorem cli_disabled (c : cpustate) : (cli c).interrupts_enabled = false := by
  rw [interrupts_enabled_eq]
  simp [cli, EFLAGS_IF, Nat.testBit_xor, Nat.testBit_and, testBit_512]

theorem sti_enabled (c : cpustate) : (sti c).interrupts_enabled = true := by
  rw [interrupts_enabled_eq]
  simp [sti, EFLAGS_IF, Nat.testBit_or, testBit_512]

theorem sti_cli (c : cpustate) (h : c.interrupts_enabled = true) : sti (cli c) = c := by
  rw [interrupts_enabled_eq] at h
  have he : (c.eflags ^^^ (c.eflags &&& 512)) ||| 512 = c.eflags := by
    apply Nat.eq_of_testBit_eq
    intro i
    simp only [Nat.testBit_or, Nat.testBit_xor, Nat.testBit_and, testBit_512]
    by_cases hi : 9 = i
    · subst hi; simp [h]
    · simp [hi]
  cases c
  simp only [sti, cli, EFLAGS_IF] at he ⊢
  simp [he]

theorem cli_of_disabled (c : cpustate) (h : c.interrupts_enabled = false) : cli c = c := by
  rw [interrupts_enabled_eq] at h
  have he : c.eflags ^^^ (c.eflags &&& 512) = c.eflags := by
    apply Nat.eq_of_testBit_eq
    intro i
    simp only [Nat.testBit_xor, Nat.testBit_and, testBit_512]
    by_cases hi : 9 = i
    · subst hi; simp [h]
    · simp [hi]
  cases c
  simp only [cli, EFLAGS_IF] at he ⊢
  simp [he]

theorem adjust_interrupts (d : Int) (c : cpustate) :
    (adjust_this_cpu_spinlock_depth d c).interrupts_enabled = c.interrupts_enabled := rfl

theorem adjust_adjust (c : cpustate) :
    adjust_this_cpu_spinlock_depth (-1) (adjust_this_cpu_spinlock_depth 1 c) = c := by
  cases c
  simp [adjust_this_cpu_spinlock_depth]

theorem lock_noirq_free (fuel : Nat) (l : spinlock) (hfuel : 0 < fuel) (h : l.f_ = false) :
    l.lock_noirq fuel = some { f_ := true } := by
  cases fuel with
  | zero => omega
  | succ n => simp [spinlock.lock_noirq, h]

theorem lock_noirq_held (fuel : Nat) (l : spinlock) (h : l.f_ = true) :
    l.lock_noirq fuel = none := by
  induction fuel generalizing l with
  | zero => rfl
  | succ n ih => simp [spinlock.lock_noirq, h, ih { f_ := true } rfl]

theorem lock_free (fuel : Nat) (l : spinlock) (c : cpustate) (hfuel : 0 < fuel)
    (h : l.f_ = false) :
    l.lock fuel c =
      .ok (irqstate.get c, { f_ := true }, adjust_this_cpu_spinlock_depth 1 (cli c)) := by
  simp [spinlock.lock, lock_noirq_free fuel l hfuel h]

theorem unlock_eq (l : spinlock) (irqs : irqstate) (c : cpustate) :
    l.unlock irqs c =
      ({ flags_ := 0 }, { f_ := false },
        if irqs.flags_ &&& EFLAGS_IF != 0 then sti (adjust_this_cpu_spinlock_depth (-1) c)
        else adjust_this_cpu_spinlock_depth (-1) c) := rfl

theorem unlock_after_lock (l : spinlock) (c : cpustate) :
    l.unlock (irqstate.get c) (adjust_this_cpu_spinlock_depth 1 (cli c)) =
      ({ flags_ := 0 }, { f_ := false }, c) := by
  rw [unlock_eq, adjust_adjust]
  have hg : ((irqstate.get c).flags_ &&& EFLAGS_IF != 0) = c.interrupts_enabled := rfl
  rw [hg]
  cases h : c.interrupts_enabled with
  | true => simp [sti_cli c h]
  | false => simp [cli_of_disabled c h]

/-- C6: on one CPU, from every state in which the spinlock is free, `lock()`
returns, leaves interrupts disabled, the lock held and the depth one higher;
and `unlock(irqs)` with the `irqstate` that `lock()` returned leaves the
lock free and the interrupt-enable flag and the depth (the whole CPU state)
as they were before `lock()`. -/
theorem C6_lock_then_unlock (fuel : Nat) (l : spinlock) (c : cpustate)
    (hfuel : 0 < fuel) (hfree : l.f_ = false) :
    ∃ irqs l1 c1, l.lock fuel c = .ok (irqs, l1, c1) ∧
      c1.interrupts_enabled = false ∧ l1.f_ = true ∧
      c1.spinlock_depth_ = c.spinlock_depth_ + 1 ∧
      (l1.unlock irqs c1).2.2.interrupts_enabled = c.interrupts_enabled ∧
      (l1.unlock irqs c1).2.2.spinlock_depth_ = c.spinlock_depth_ ∧
      (l1.unlock irqs c1).2.1.f_ = false ∧
      (l1.unlock irqs c1).2.2 = c := by
  refine ⟨irqstate.get c, { f_ := true }, adjust_this_cpu_spinlock_depth 1 (cli c),
    lock_free fuel l c hfuel hfree, ?_, rfl, rfl, ?_, ?_, ?_, ?_⟩
  · rw [adjust_interrupts]; exact cli_disabled c
  all_goals rw [unlock_after_lock]

/-- Witness of C6: a free spinlock on a CPU with interrupts enabled and
depth 0. -/
theorem C6_lock_then_unlock_witness :
    (0 < 1 ∧ ({ f_ := false } : spinlock).f_ = false) ∧
    (∃ irqs l1 c1, ({ f_ := false } : spinlock).lock 1 cpu_on = .ok (irqs, l1, c1) ∧
      c1.interrupts_enabled = false ∧ l1.f_ = true ∧
      c1.spinlock_depth_ = cpu_on.spinlock_depth_ + 1 ∧
      (l1.unlock irqs c1).2.2.interrupts_enabled = cpu_on.interrupts_enabled ∧
      (l1.unlock irqs c1).2.2.spinlock_depth_ = cpu_on.spinlock_depth_ ∧
      (l1.unlock irqs c1).2.1.f_ = false ∧
      (l1.unlock irqs c1).2.2 = cpu_on) ∧
    ({ f_ := false } : spinlock).lock 1 cpu_on =
      .ok ({ flags_ := 0x202 }, { f_ := true }, { eflags := 0x2, spinlock_depth_ := 1 }) ∧
    cpu_on.interrupts_enabled = true :=
  ⟨⟨by decide, rfl⟩, C6_lock_then_unlock 1 { f_ := false } cpu_on (by decide) rfl,
   rfl, by decide⟩

/-! ## The spinlock guard -/

theorem guard_inv_locked (c0 : cpustate) (s : spinlock_guard × spinlock × cpustate)
    (h : s.1.locked_ = true) :
    guard_inv c0 s ↔
      (s.2.1.f_ = true ∧ s.1.irqs_ = irqstate.get c0 ∧
        s.2.2 = adjust_this_cpu_spinlock_depth 1 (cli c0)) := by
  unfold guard_inv
  rw [if_pos h]

theorem guard_inv_unlocked (c0 : cpustate) (s : spinlock_guard × spinlock × cpustate)
    (h : s.1.locked_ = false) :
    guard_inv c0 s ↔ (s.2.1.f_ = false ∧ s.1.irqs_.flags_ = 0 ∧ s.2.2 = c0) := by
  unfold guard_inv
  rw [if_neg (by simp [h])]

theorem guard_new_inv (fuel : Nat) (hfuel : 0 < fuel) (l : spinlock) (c0 : cpustate)
    (hfree : l.f_ = false) :
    ∃ s, spinlock_guard.new fuel l c0 = .ok s ∧ s.1.locked_ = true ∧ guard_inv c0 s := by
  refine ⟨({ irqs_ := irqstate.get c0, locked_ := true }, { f_ := true },
    adjust_this_cpu_spinlock_depth 1 (cli c0)), ?_, rfl, ?_⟩
  · simp [spinlock_guard.new, lock_free fuel l c0 hfuel hfree]
  · rw [guard_inv_locked _ _ rfl]
    exact ⟨rfl, rfl, rfl⟩

theorem guard_unlock_inv (c0 : cpustate) (s : spinlock_guard × spinlock × cpustate)
    (hinv : guard_inv c0 s) (hl : s.1.locked_ = true) :
    ∃ s1, s.1.unlock s.2.1 s.2.2 = .ok s1 ∧ s1.1.locked_ = false ∧ guard_inv c0 s1 := by
  rw [guard_inv_locked c0 s hl] at hinv
  obtain ⟨_, hi, hc⟩ := hinv
  refine ⟨({ irqs_ := { flags_ := 0 }, locked_ := false }, { f_ := false }, c0), ?_, rfl, ?_⟩
  · simp only [spinlock_guard.unlock, hl, if_true, hi, hc, unlock_after_lock]
  · rw [guard_inv_unlocked _ _ rfl]
    exact ⟨rfl, rfl, rfl⟩

theorem guard_lock_inv (fuel : Nat) (hfuel : 0 < fuel) (c0 : cpustate)
    (s : spinlock_guard × spinlock × cpustate)
    (hinv : guard_inv c0 s) (hl : s.1.locked_ = false) :
    ∃ s1, s.1.lock fuel s.2.1 s.2.2 = .ok s1 ∧ s1.1.locked_ = true ∧ guard_inv c0 s1 := by
  rw [guard_inv_unlocked c0 s hl] at hinv
  obtain ⟨hf, hi, hc⟩ := hinv
  refine ⟨({ irqs_ := irqstate.get c0, locked_ := true }, { f_ := true },
    adjust_this_cpu_spinlock_depth 1 (cli c0)), ?_, rfl, ?_⟩
  · simp [spinlock_guard.lock, hl, hc, lock_free fuel s.2.1 c0 hfuel hf, irqstate.assign, hi,
      irqstate.destroy, irqstate.get]
  · rw [guard_inv_locked _ _ rfl]
    exact ⟨rfl, rfl, rfl⟩

theorem guard_run_inv (fuel : Nat) (hfuel : 0 < fuel) (c0 : cpustate) (ops : List guard_op) :
    ∀ s : spinlock_guard × spinlock × cpustate, guard_inv c0 s →
      guard_valid s.1.locked_ ops = true →
      ∃ s1, spinlock_guard.run fuel ops s = .ok s1 ∧ guard_inv c0 s1 := by
  induction ops with
  | nil => intro s hinv _; exact ⟨s, rfl, hinv⟩
  | cons op ops ih =>
    intro s hinv hv
    cases op with
    | unlock =>
      cases hl : s.1.locked_ with
      | false => rw [hl] at hv; simp [guard_valid] at hv
      | true =>
        rw [hl] at hv
        obtain ⟨s1, h1, hl1, hinv1⟩ := guard_unlock_inv c0 s hinv hl
        have hv1 : guard_valid s1.1.locked_ ops = true := by
          rw [hl1]; simpa [guard_valid] using hv
        obtain ⟨s2, h2, hinv2⟩ := ih s1 hinv1 hv1
        refine ⟨s2, ?_, hinv2⟩
        simp [spinlock_guard.run, spinlock_guard.step, h1, h2]
    | lock =>
      cases hl : s.1.locked_ with
      | true => rw [hl] at hv; simp [guard_valid] at hv
      | false =>
        rw [hl] at hv
        obtain ⟨s1, h1, hl1, hinv1⟩ := guard_lock_inv fuel hfuel c0 s hinv hl
        have hv1 : guard_valid s1.1.locked_ ops = true := by
          rw [hl1]; simpa [guard_valid] using hv
        obtain ⟨s2, h2, hinv2⟩ := ih s1 hinv1 hv1
        refine ⟨s2, ?_, hinv2⟩
        simp [spinlock_guard.run, spinlock_guard.step, h1, h2]

theorem guard_destroy_inv (c0 : cpustate) (s : spinlock_guard × spinlock × cpustate)
    (hinv : guard_inv c0 s) :
    s.1.destroy s.2.1 s.2.2 =
        .ok (if s.1.locked_ then (s.2.1.unlock s.1.irqs_ s.2.2).2 else (s.2.1, s.2.2)) ∧
      s.1.destroy s.2.1 s.2.2 = .ok ({ f_ := false }, c0) := by
  cases hg : s.1.locked_ with
  | true =>
    rw [guard_inv_locked c0 s hg] at hinv
    obtain ⟨_, hi, hc⟩ := hinv
    simp [spinlock_guard.destroy, hg, hi, hc, unlock_after_lock, irqstate.destroy]
  | false =>
    rw [guard_inv_unlocked c0 s hg] at hinv
    obtain ⟨hf, hi, hc⟩ := hinv
    have hl : s.2.1 = { f_ := false } := by
      cases h : s.2.1
      rw [h] at hf
      simp only at hf
      simp [hf]
    simp [spinlock_guard.destroy, hg, hi, hc, hl, irqstate.destroy]

/-- C10: take a guard constructed on a spinlock through any sequence of
`unlock()` and `lock()` calls that respects their preconditions. If the
spinlock is held at construction the constructor spins and no assertion is
reached. If it is free, no assertion fails and nothing spins: the sequence
returns, `locked_` false implies `irqs_.flags_ == 0`, the spinlock is held
exactly when `locked_` is true, and the destructor returns normally, calls
`unlock(irqs_)` on the spinlock iff `locked_` is true, and leaves the
spinlock free and the CPU as it was before the guard was constructed. -/
theorem C10_guard_invariant (fuel : Nat) (l : spinlock) (c0 : cpustate)
    (ops : List guard_op) (hv : guard_valid true ops = true) :
    (l.f_ = true → spinlock_guard.new_then_run fuel l c0 ops = .error .spin) ∧
    (l.f_ = false → 0 < fuel →
      ∃ g l1 c1, spinlock_guard.new_then_run fuel l c0 ops = .ok (g, l1, c1) ∧
        (g.locked_ = false → g.irqs_.flags_ = 0) ∧
        l1.f_ = g.locked_ ∧
        g.destroy l1 c1 = .ok (if g.locked_ then (l1.unlock g.irqs_ c1).2 else (l1, c1)) ∧
        g.destroy l1 c1 = .ok ({ f_ := false }, c0)) := by
  refine ⟨?_, ?_⟩
  · intro hheld
    simp [spinlock_guard.new_then_run, spinlock_guard.new, spinlock.lock,
      lock_noirq_held fuel l hheld]
  · intro hfree hfuel
    obtain ⟨s, hnew, hl, hinv⟩ := guard_new_inv fuel hfuel l c0 hfree
    have hv0 : guard_valid s.1.locked_ ops = true := by rw [hl]; exact hv
    obtain ⟨⟨g, l1, c1⟩, hrun, hinv1⟩ := guard_run_inv fuel hfuel c0 ops s hinv hv0
    have hd := guard_destroy_inv c0 (g, l1, c1) hinv1
    refine ⟨g, l1, c1, ?_, ?_, ?_, hd.1, hd.2⟩
    · simp [spinlock_guard.new_then_run, hnew, hrun]
    · intro hg
      exact ((guard_inv_unlocked c0 (g, l1, c1) hg).1 hinv1).2.1
    · cases hg : g.locked_ with
      | true => exact ((guard_inv_locked c0 (g, l1, c1) hg).1 hinv1).1
      | false => exact ((guard_inv_unlocked c0 (g, l1, c1) hg).1 hinv1).1

/-- Witness of C10: construction, `unlock()`, `lock()`, `unlock()`, then
destruction, on a CPU with interrupts enabled. -/
theorem C10_guard_invariant_witness :
    (0 < 1 ∧ ({ f_ := false } : spinlock).f_ = false ∧
      guard_valid true [.unlock, .lock, .unlock] = true) ∧
    (∃ g l1 c1,
      spinlock_guard.new_then_run 1 { f_ := false } cpu_on [.unlock, .lock, .unlock]
        = .ok (g, l1, c1) ∧
      (g.locked_ = false → g.irqs_.flags_ = 0) ∧
      l1.f_ = g.locked_ ∧
      g.destroy l1 c1 = .ok (if g.locked_ then (l1.unlock g.irqs_ c1).2 else (l1, c1)) ∧
      g.destroy l1 c1 = .ok ({ f_ := false }, cpu_on)) ∧
    spinlock_guard.new_then_run 1 { f_ := false } cpu_on [.unlock, .lock, .unlock]
      = .ok ({ irqs_ := { flags_ := 0 }, locked_ := false }, { f_ := false }, cpu_on) ∧
    spinlock_guard.new_then_run 1 { f_ := false } cpu_on [.unlock, .lock]
      = .ok ({ irqs_ := { flags_ := 0x202 }, locked_ := true }, { f_ := true },
          { eflags := 0x2, spinlock_depth_ := 1 }) :=
  ⟨⟨by decide, rfl, by decide⟩,
   (C10_guard_invariant 1 { f_ := false } cpu_on [.unlock, .lock, .unlock] (by decide)).2
     rfl (by decide),
   rfl, rfl⟩

/-! ## Several spinlocks -/

theorem step_lock_free (fuel : Nat) (hfuel : 0 < fuel) (s : kstate) (l : Nat)
    (hf : (s.locks l).f_ = false) :
    s.step fuel (.lock l) =
      .ok { cpu := adjust_this_cpu_spinlock_depth 1 (cli s.cpu),
            locks := Function.update s.locks l { f_ := true },
            irqs := Function.update s.irqs l (irqstate.get s.cpu) } := by
  simp [kstate.step, lock_free fuel (s.locks l) s.cpu hfuel hf]

theorem step_unlock (fuel : Nat) (s : kstate) (l : Nat) :
    s.step fuel (.unlock l) =
      .ok { cpu := if (s.irqs l).flags_ &&& EFLAGS_IF != 0
                   then sti (adjust_this_cpu_spinlock_depth (-1) s.cpu)
                   else adjust_this_cpu_spinlock_depth (-1) s.cpu,
            locks := Function.update s.locks l { f_ := false },
            irqs := Function.update s.irqs l { flags_ := 0 } } := by
  simp [kstate.step, unlock_eq]

theorem outer_inv_first_lock (inner : List Nat) (s : kstate) (l : Nat)
    (hinv : outer_inv none inner s) :
    outer_inv (some l) []
      { cpu := adjust_this_cpu_spinlock_depth 1 (cli s.cpu),
        locks := Function.update s.locks l { f_ := true },
        irqs := Function.update s.irqs l (irqstate.get s.cpu) } := by
  obtain ⟨hd, hfree⟩ := hinv
  refine ⟨?_, ?_, List.not_mem_nil l, List.nodup_nil, ?_, ?_⟩
  · simp [adjust_this_cpu_spinlock_depth, cli, hd]
  · intro m
    by_cases hm : m = l
    · subst hm; simp
    · simp [Function.update_noteq hm, hfree m, hm]
  · show (adjust_this_cpu_spinlock_depth 1 (cli s.cpu)).interrupts_enabled = false
    rw [adjust_interrupts]
    exact cli_disabled s.cpu
  · intro m hm
    exact absurd hm (List.not_mem_nil m)

theorem outer_inv_lock (o : Nat) (inner : List Nat) (s : kstate) (l : Nat)
    (hinv : outer_inv (some o) inner s) (hlo : l ≠ o) (hl : l ∉ inner) :
    outer_inv (some o) (l :: inner)
      { cpu := adjust_this_cpu_spinlock_depth 1 (cli s.cpu),
        locks := Function.update s.locks l { f_ := true },
        irqs := Function.update s.irqs l (irqstate.get s.cpu) } := by
  obtain ⟨hd, hlk, ho, hnd, hif, hsv⟩ := hinv
  refine ⟨?_, ?_, ?_, List.nodup_cons.mpr ⟨hl, hnd⟩, ?_, ?_⟩
  · simp [adjust_this_cpu_spinlock_depth, cli, hd]
  · intro m
    by_cases hm : m = l
    · subst hm; simp
    · simp [Function.update_noteq hm, hlk m, hm]
  · intro h
    rcases List.mem_cons.mp h with h1 | h1
    · exact hlo h1.symm
    · exact ho h1
  · show (adjust_this_cpu_spinlock_depth 1 (cli s.cpu)).interrupts_enabled = false
    rw [adjust_interrupts]
    exact cli_disabled s.cpu
  · intro m hm
    rcases List.mem_cons.mp hm with h1 | h1
    · subst h1
      simp only [Function.update_same]
      exact hif
    · have hml : m ≠ l := fun h => hl (h ▸ h1)
      simp only [Function.update_noteq hml]
      exact hsv m h1

theorem outer_inv_unlock_inner (o : Nat) (inner : List Nat) (s : kstate) (l : Nat)
    (hinv : outer_inv (some o) inner s) (hl : l ∈ inner) :
    outer_inv (some o) (inner.erase l)
      { cpu := if (s.irqs l).flags_ &&& EFLAGS_IF != 0
               then sti (adjust_this_cpu_spinlock_depth (-1) s.cpu)
               else adjust_this_cpu_spinlock_depth (-1) s.cpu,
        locks := Function.update s.locks l { f_ := false },
        irqs := Function.update s.irqs l { flags_ := 0 } } := by
  obtain ⟨hd, hlk, ho, hnd, hif, hsv⟩ := hinv
  have hmem : ∀ m, m ∈ inner.erase l ↔ m ≠ l ∧ m ∈ inner := fun m => hnd.mem_erase_iff
  have hlen : (inner.erase l).length + 1 = inner.length := by
    rw [List.length_erase_of_mem hl]
    have := List.length_pos_of_mem hl
    omega
  have hol : o ≠ l := fun h => ho (h ▸ hl)
  rw [hsv l hl]
  simp only [Bool.false_eq_true, if_false]
  refine ⟨?_, ?_, ?_, hnd.erase l, hif, ?_⟩
  · show s.cpu.spinlock_depth_ + (-1) = ((inner.erase l).length : Int) + 1
    rw [hd]
    have : ((inner.erase l).length : Int) + 1 = inner.length := by exact_mod_cast hlen
    omega
  · intro m
    by_cases hm : m = l
    · subst hm
      have hmo : ¬ m = o := fun h => hol h.symm
      simp [hmem, hmo]
    · simp [Function.update_noteq hm, hlk m, hmem, hm]
  · intro h
    exact ho ((hmem o).mp h).2
  · intro m hm
    obtain ⟨hml, hmi⟩ := (hmem m).mp hm
    simp only [Function.update_noteq hml]
    exact hsv m hmi

theorem outer_inv_unlock_outer (o : Nat) (s : kstate)
    (hinv : outer_inv (some o) [] s) :
    outer_inv none []
      { cpu := if (s.irqs o).flags_ &&& EFLAGS_IF != 0
               then sti (adjust_this_cpu_spinlock_depth (-1) s.cpu)
               else adjust_this_cpu_spinlock_depth (-1) s.cpu,
        locks := Function.update s.locks o { f_ := false },
        irqs := Function.update s.irqs o { flags_ := 0 } } := by
  obtain ⟨hd, hlk, _, _, _, _⟩ := hinv
  refine ⟨?_, ?_⟩
  · have hdepth : ∀ c : cpustate, c.spinlock_depth_ = s.cpu.spinlock_depth_ + (-1) →
        c.spinlock_depth_ = 0 := by
      intro c hc
      rw [hc, hd]
      simp
    apply hdepth
    split <;> rfl
  · intro m
    by_cases hm : m = o
    · subst hm; simp
    · have := hlk m
      simp only [List.not_mem_nil, or_false, hm] at this
      simp only [Function.update_noteq hm]
      cases h : (s.locks m).f_ with
      | false => rfl
      | true => exact absurd (this.mp h) (fun h => h)

theorem outer_inv_safe (outer : Option Nat) (inner : List Nat) (s : kstate)
    (hinv : outer_inv outer inner s) (hpos : 0 < s.cpu.spinlock_depth_) :
    s.cpu.interrupts_enabled = false := by
  cases outer with
  | none =>
    have h : s.cpu.spinlock_depth_ = 0 := hinv.1
    omega
  | some o => exact hinv.2.2.2.2.1

theorem outer_last_trace (fuel : Nat) (hfuel : 0 < fuel) (ops : List lock_op) :
    ∀ (outer : Option Nat) (inner : List Nat) (s : kstate), outer_inv outer inner s →
      outer_last outer inner ops = true →
      (s.trace fuel ops).length = ops.length + 1 ∧
      ∀ s1 ∈ s.trace fuel ops, 0 < s1.cpu.spinlock_depth_ →
        s1.cpu.interrupts_enabled = false := by
  induction ops with
  | nil =>
    intro outer inner s hinv _
    refine ⟨rfl, ?_⟩
    intro s1 hs1 hpos
    simp only [kstate.trace, List.mem_singleton] at hs1
    subst hs1
    exact outer_inv_safe outer inner s1 hinv hpos
  | cons op ops ih =>
    intro outer inner s hinv hn
    have hhere := outer_inv_safe outer inner s hinv
    have hcons : ∀ s2 : kstate, s.step fuel op = .ok s2 →
        ((s2.trace fuel ops).length = ops.length + 1 ∧
          ∀ s1 ∈ s2.trace fuel ops, 0 < s1.cpu.spinlock_depth_ →
            s1.cpu.interrupts_enabled = false) →
        (s.trace fuel (op :: ops)).length = (op :: ops).length + 1 ∧
          ∀ s1 ∈ s.trace fuel (op :: ops), 0 < s1.cpu.spinlock_depth_ →
            s1.cpu.interrupts_enabled = false := by
      intro s2 hstep hrest
      obtain ⟨hlen, hall⟩ := hrest
      simp only [kstate.trace, hstep, List.length_cons, List.mem_cons]
      refine ⟨by rw [hlen], ?_⟩
      rintro s1 (rfl | hs1) hpos
      · exact hhere hpos
      · exact hall s1 hs1 hpos
    cases op with
    | lock l =>
      cases outer with
      | none =>
        simp only [outer_last] at hn
        have hf : (s.locks l).f_ = false := hinv.2 l
        exact hcons _ (step_lock_free fuel hfuel s l hf)
          (ih (some l) [] _ (outer_inv_first_lock inner s l hinv) hn)
      | some o =>
        simp only [outer_last, Bool.and_eq_true] at hn
        obtain ⟨⟨hlo0, hl0⟩, hn1⟩ := hn
        have hlo : l ≠ o := by simpa using hlo0
        have hl : l ∉ inner := by simpa using hl0
        have hf : (s.locks l).f_ = false := by
          cases h : (s.locks l).f_ with
          | false => rfl
          | true =>
            rcases (hinv.2.1 l).mp h with h1 | h1
            · exact absurd h1 hlo
            · exact absurd h1 hl
        exact hcons _ (step_lock_free fuel hfuel s l hf)
          (ih (some o) (l :: inner) _ (outer_inv_lock o inner s l hinv hlo hl) hn1)
    | unlock l =>
      cases outer with
      | none => simp [outer_last] at hn
      | some o =>
        simp only [outer_last] at hn
        by_cases hl0 : inner.contains l = true
        · rw [if_pos hl0] at hn
          have hl : l ∈ inner := by simpa using hl0
          exact hcons _ (step_unlock fuel s l)
            (ih (some o) (inner.erase l) _ (outer_inv_unlock_inner o inner s l hinv hl) hn)
        · rw [if_neg hl0] at hn
          simp only [Bool.and_eq_true, beq_iff_eq, List.isEmpty_iff] at hn
          obtain ⟨⟨hlo, hemp⟩, hn1⟩ := hn
          subst hlo
          subst hemp
          exact hcons _ (step_unlock fuel s l)
            (ih none [] _ (outer_inv_unlock_outer l s hinv) hn1)

/-- C7 (as amended): for every sequence of `lock()` and `unlock()` calls made
by one CPU that starts at spinlock depth 0 with all spinlocks free, in
which each `unlock` releases a held spinlock with the `irqstate` its
`lock()` returned and the outermost spinlock (the one acquired at depth 0)
is released only when no other spinlock is held, every call returns and
interrupts are disabled in every state in which the depth is greater than
0. -/
theorem C7_outermost_last_keeps_interrupts_off (fuel : Nat) (hfuel : 0 < fuel) (s0 : kstate)
    (hdepth : s0.cpu.spinlock_depth_ = 0) (hfree : ∀ l, (s0.locks l).f_ = false)
    (ops : List lock_op) (hn : outer_last none [] ops = true) :
    (s0.trace fuel ops).length = ops.length + 1 ∧
    ∀ s ∈ s0.trace fuel ops, 0 < s.cpu.spinlock_depth_ →
      s.cpu.interrupts_enabled = false :=
  outer_last_trace fuel hfuel ops none [] s0 ⟨hdepth, hfree⟩ hn

/-- Witness of C7 as amended: lock 0, lock 1, lock 2, unlock 1, unlock 2,
unlock 0 on a CPU with interrupts enabled; interrupts come back on only
with the last unlock. -/
theorem C7_outermost_last_keeps_interrupts_off_witness :
    (0 < 1 ∧ kstate_init.cpu.spinlock_depth_ = 0 ∧
      (∀ l, (kstate_init.locks l).f_ = false) ∧
      outer_last none [] [.lock 0, .lock 1, .lock 2, .unlock 1, .unlock 2, .unlock 0] = true) ∧
    ((kstate_init.trace 1 [.lock 0, .lock 1, .lock 2, .unlock 1, .unlock 2, .unlock 0]).length
        = [lock_op.lock 0, .lock 1, .lock 2, .unlock 1, .unlock 2, .unlock 0].length + 1 ∧
      ∀ s ∈ kstate_init.trace 1 [.lock 0, .lock 1, .lock 2, .unlock 1, .unlock 2, .unlock 0],
        0 < s.cpu.spinlock_depth_ → s.cpu.interrupts_enabled = false) ∧
    (kstate_init.trace 1 [.lock 0, .lock 1, .lock 2, .unlock 1, .unlock 2, .unlock 0]).map
        (fun s => (s.cpu.spinlock_depth_, s.cpu.interrupts_enabled))
      = [(0, true), (1, false), (2, false), (3, false), (2, false), (1, false), (0, true)] :=
  ⟨⟨by decide, rfl, fun _ => rfl, by decide⟩,
   C7_outermost_last_keeps_interrupts_off 1 (by decide) kstate_init rfl (fun _ => rfl)
     [.lock 0, .lock 1, .lock 2, .unlock 1, .unlock 2, .unlock 0] (by decide),
   by decide⟩

/-- C7 fails as stated. From depth 0 with interrupts enabled, the calls
lock 0, lock 1, unlock 0 (each `unlock` with the `irqstate` returned by the
`lock()` of the same spinlock) all return, and after the last one the depth is
1, spinlock 1 is still held, and interrupts are enabled. -/
theorem C7_counterexample :
    kstate_init.cpu.spinlock_depth_ = 0 ∧
    balanced [] [.lock 0, .lock 1, .unlock 0] = true ∧
    (kstate_init.trace 1 [.lock 0, .lock 1, .unlock 0]).map
        (fun s => (s.cpu.spinlock_depth_, s.cpu.interrupts_enabled, (s.locks 1).f_))
      = [(0, true, false), (1, false, false), (2, false, true), (1, true, true)] ∧
    ∃ s ∈ kstate_init.trace 1 [.lock 0, .lock 1, .unlock 0],
      0 < s.cpu.spinlock_depth_ ∧ s.cpu.interrupts_enabled = true := by
  refine ⟨rfl, by decide, by decide, by decide⟩

/-! ## Reference-counted handles -/

theorem count_set_int (l : List (Option Nat)) (i : Nat) (e a b : Option Nat)
    (h : l[i]? = some e) :
    ((l.set i a).count b : Int) =
      (l.count b : Int) - (if e = b then 1 else 0) + (if a = b then 1 else 0) := by
  obtain ⟨hi, he⟩ := List.getElem?_eq_some.mp h
  rw [List.count_set a b l i hi, he]
  have hpos : e = b → 0 < l.count b := by
    intro hb
    rw [List.count_pos_iff, ← hb, ← he]
    exact List.getElem_mem hi
  by_cases h1 : e = b <;> by_cases h2 : a = b
  · have := hpos h1
    simp [h1, h2]
    omega
  · have := hpos h1
    simp [h1, h2]
    omega
  · simp [h1, h2]
  · simp [h1, h2]

theorem reset_refcount (h : Nat) (x e : Option Nat) (s : ref_heap) (he : s.e_[h]? = some e)
    (q : Nat) :
    (ref_ptr.reset h x s).refcount q = s.refcount q - (if e = some q then 1 else 0) := by
  unfold ref_ptr.reset
  rw [he]
  cases e with
  | none => simp
  | some p =>
    by_cases hq : q = p
    · subst hq; simp [decrement_reference_count]
    · have hq1 : ¬ p = q := fun h => hq h.symm
      simp [decrement_reference_count, Function.update_noteq hq, hq1]

theorem reset_e (h : Nat) (x e : Option Nat) (s : ref_heap) (he : s.e_[h]? = some e) :
    (ref_ptr.reset h x s).e_ = s.e_.set h x := by
  unfold ref_ptr.reset
  rw [he]

theorem reset_excess (h : Nat) (x e : Option Nat) (s : ref_heap) (he : s.e_[h]? = some e)
    (q : Nat) :
    (ref_ptr.reset h x s).excess q = s.excess q - (if x = some q then 1 else 0) := by
  unfold ref_heap.excess ref_heap.handles
  rw [reset_refcount h x e s he q, reset_e h x e s he, count_set_int s.e_ h e x (some q) he]
  omega

theorem reset_null_excess (h : Nat) (s : ref_heap) (q : Nat) :
    (ref_ptr.reset h none s).excess q = s.excess q := by
  cases he : s.e_[h]? with
  | none => simp [ref_ptr.reset, he]
  | some e => rw [reset_excess h none e s he q]; simp

theorem move_construct_excess (x : Nat) (s : ref_heap) (q : Nat) :
    (ref_ptr.move_construct x s).excess q = s.excess q := by
  cases he : s.e_[x]? with
  | none => simp [ref_ptr.move_construct, he]
  | some e =>
    unfold ref_heap.excess ref_heap.handles
    simp only [ref_ptr.move_construct, he, List.count_append, Nat.cast_add]
    rw [count_set_int s.e_ x e none (some q) he]
    by_cases h1 : e = some q
    · simp [h1]
    · simp [h1, List.count_singleton]

theorem move_assign_excess (self x : Nat) (s : ref_heap) (q : Nat) :
    (ref_ptr.move_assign self x s).excess q = s.excess q := by
  unfold ref_ptr.move_assign
  cases he : s.e_[self]? with
  | none => simp
  | some e =>
    cases hx : s.e_[x]? with
    | none => simp
    | some xe =>
      by_cases hne : xe = e
      · simp [hne]
      · simp only [ne_eq, hne, not_false_eq_true, if_true]
        have hsx : self ≠ x := by
          intro h
          rw [h, hx] at he
          exact hne (Option.some.inj he)
        have hx1 : (ref_ptr.reset self xe s).e_[x]? = some xe := by
          rw [reset_e self xe e s he, List.getElem?_set]
          simp [hsx, hx]
        unfold ref_heap.excess ref_heap.handles
        simp only
        rw [count_set_int _ x xe none (some q) hx1, reset_e self xe e s he,
          count_set_int s.e_ self e xe (some q) he, reset_refcount self xe e s he q]
        simp

/-- C8: `reset(x)` (and the destructor, which is `reset()` to null) on a
handle that holds `p` decrements the count of `p` by exactly one and no
other count, on an empty handle it decrements nothing, and in both cases
the handle then holds `x` and the other handles are untouched; and for
every object the reference count minus the number of handles pointing at it
is unchanged by the destructor, `reset()` to null, move construction and
move assignment, where move assignment between two handles that hold the
same pointer changes nothing at all. -/
theorem C8_ref_ptr_counts (s : ref_heap) (h : Nat) :
    (∀ x p, s.e_[h]? = some (some p) →
      (ref_ptr.reset h x s).refcount p = s.refcount p - 1 ∧
      (∀ q, q ≠ p → (ref_ptr.reset h x s).refcount q = s.refcount q) ∧
      (ref_ptr.reset h x s).e_[h]? = some x) ∧
    (∀ x, s.e_[h]? = some none →
      (ref_ptr.reset h x s).refcount = s.refcount ∧
      (ref_ptr.reset h x s).e_[h]? = some x) ∧
    (∀ x k, k ≠ h → (ref_ptr.reset h x s).e_[k]? = s.e_[k]?) ∧
    ref_ptr.destroy h s = ref_ptr.reset h none s ∧
    (∀ q, (ref_ptr.destroy h s).excess q = s.excess q) ∧
    (∀ q, (ref_ptr.reset h none s).excess q = s.excess q) ∧
    (∀ q, (ref_ptr.move_construct h s).excess q = s.excess q) ∧
    (∀ x q, (ref_ptr.move_assign h x s).excess q = s.excess q) ∧
    (∀ x e, s.e_[h]? = some e → s.e_[x]? = some e → ref_ptr.move_assign h x s = s) := by
  have hset : ∀ (x e : Option Nat), s.e_[h]? = some e →
      (ref_ptr.reset h x s).e_[h]? = some x := by
    intro x e he
    obtain ⟨hi, _⟩ := List.getElem?_eq_some.mp he
    rw [reset_e h x e s he, List.getElem?_set]
    simp [hi]
  refine ⟨?_, ?_, ?_, rfl, ?_, ?_, ?_, ?_, ?_⟩
  · intro x p hp
    refine ⟨?_, ?_, hset x _ hp⟩
    · rw [reset_refcount h x (some p) s hp p]; simp
    · intro q hq
      rw [reset_refcount h x (some p) s hp q]
      have : ¬ p = q := fun h => hq h.symm
      simp [this]
  · intro x hn
    refine ⟨?_, hset x _ hn⟩
    funext q
    rw [reset_refcount h x none s hn q]
    simp
  · intro x k hk
    cases he : s.e_[h]? with
    | none => simp [ref_ptr.reset, he]
    | some e =>
      have hk1 : ¬ h = k := fun h1 => hk h1.symm
      rw [reset_e h x e s he, List.getElem?_set, if_neg hk1]
  · intro q
    exact reset_null_excess h s q
  · intro q
    exact reset_null_excess h s q
  · intro q
    exact move_construct_excess h s q
  · intro x q
    exact move_assign_excess h x s q
  · intro x e he hx
    simp [ref_ptr.move_assign, he, hx]

/-- Witness of C8: dropping the first of two handles to the object at 7,
whose count is 2, leaves count 1, one handle, and the difference 0. -/
theorem C8_ref_ptr_counts_witness :
    heap0.e_[0]? = some (some 7) ∧
    ((ref_ptr.reset 0 none heap0).refcount 7 = heap0.refcount 7 - 1 ∧
      (∀ q, q ≠ 7 → (ref_ptr.reset 0 none heap0).refcount q = heap0.refcount q) ∧
      (ref_ptr.reset 0 none heap0).e_[0]? = some none) ∧
    (ref_ptr.destroy 0 heap0).refcount 7 = 1 ∧
    (ref_ptr.destroy 0 heap0).e_ = [none, some 7, none] ∧
    heap0.excess 7 = 0 ∧ (ref_ptr.destroy 0 heap0).excess 7 = 0 ∧
    ref_ptr.move_assign 0 1 heap0 = heap0 :=
  ⟨rfl, (C8_ref_ptr_counts heap0 0).1 none 7 rfl, by decide, by decide, by decide, by decide,
   (C8_ref_ptr_counts heap0 0).2.2.2.2.2.2.2.2 1 (some 7) rfl rfl⟩

/-! ## `dprintf` and `printf` -/

theorem int_of_ssize_t_eq (r : Int) (hlo : -2 ^ 31 ≤ r) (hhi : r < 2 ^ 31) :
    int_of_ssize_t r = r := by
  unfold int_of_ssize_t
  omega

theorem int_of_ssize_t_range (r : Int) :
    -2 ^ 31 ≤ int_of_ssize_t r ∧ int_of_ssize_t r < 2 ^ 31 := by
  unfold int_of_ssize_t
  omega

/-- C9 (as amended): with `n` the value that `vsnprintf` returns (as the
`size_t` that `dprintf` stores; it is the returned `int` itself when that
is a length, that is, not negative), `dprintf(fd, ...)` returns `E_2BIG`
without calling `sys_write` iff `n >= 513`, and otherwise calls
`sys_write(fd, buf, n)` exactly once and returns its result converted to
`int`, which is the result itself whenever that lies between `-2^31` and
`2^31 - 1`; `printf(...)` is `dprintf(1, ...)`. Here `E_2BIG` is an `int`
constant. -/
theorem C9_dprintf {α : Type} (E_2BIG : Int) (vsnprintf : Nat → α → List Nat × Int)
    (sys_write : Int → List Nat → Nat → Int) (fd : Int) (args : α)
    (hE : -2 ^ 31 ≤ E_2BIG ∧ E_2BIG < 2 ^ 31) :
    (((dprintf E_2BIG vsnprintf sys_write fd args).1 = E_2BIG ∧
        (dprintf E_2BIG vsnprintf sys_write fd args).2 = []) ↔
      513 ≤ size_t_of_int (vsnprintf 513 args).2) ∧
    (size_t_of_int (vsnprintf 513 args).2 < 513 →
      dprintf E_2BIG vsnprintf sys_write fd args =
        (int_of_ssize_t
            (sys_write fd (vsnprintf 513 args).1 (size_t_of_int (vsnprintf 513 args).2)),
         [{ fd := fd, buf := (vsnprintf 513 args).1,
            sz := size_t_of_int (vsnprintf 513 args).2 }])) ∧
    (size_t_of_int (vsnprintf 513 args).2 < 513 →
      -2 ^ 31 ≤ sys_write fd (vsnprintf 513 args).1 (size_t_of_int (vsnprintf 513 args).2) →
      sys_write fd (vsnprintf 513 args).1 (size_t_of_int (vsnprintf 513 args).2) < 2 ^ 31 →
      dprintf E_2BIG vsnprintf sys_write fd args =
        (sys_write fd (vsnprintf 513 args).1 (size_t_of_int (vsnprintf 513 args).2),
         [{ fd := fd, buf := (vsnprintf 513 args).1,
            sz := size_t_of_int (vsnprintf 513 args).2 }])) ∧
    (0 ≤ (vsnprintf 513 args).2 → (vsnprintf 513 args).2 < 2 ^ 64 →
      (size_t_of_int (vsnprintf 513 args).2 : Int) = (vsnprintf 513 args).2) ∧
    printf E_2BIG vsnprintf sys_write args = dprintf E_2BIG vsnprintf sys_write 1 args := by
  have hEeq : int_of_ssize_t E_2BIG = E_2BIG := int_of_ssize_t_eq E_2BIG hE.1 hE.2
  refine ⟨?_, ?_, ?_, ?_, rfl⟩
  · by_cases hn : size_t_of_int (vsnprintf 513 args).2 < 513
    · simp [dprintf, hn]
    · simp [dprintf, hn, hEeq]
      omega
  · intro hn
    simp [dprintf, hn]
  · intro hn hlo hhi
    simp [dprintf, hn, int_of_ssize_t_eq _ hlo hhi]
  · intro h0 h1
    unfold size_t_of_int
    omega

/-- Witness of C9 as amended: a two-byte string is written with one
`sys_write` of 2 bytes whose result 2 is returned, and a 513-byte string
gives `E_2BIG` (here -7) and no `sys_write`. -/
theorem C9_dprintf_witness :
    ((-2 ^ 31 ≤ (-7 : Int) ∧ (-7 : Int) < 2 ^ 31) ∧
      size_t_of_int (vsnprintf_text 513 [104, 105]).2 < 513 ∧
      -2 ^ 31 ≤ sys_write_all 2 (vsnprintf_text 513 [104, 105]).1
          (size_t_of_int (vsnprintf_text 513 [104, 105]).2) ∧
      sys_write_all 2 (vsnprintf_text 513 [104, 105]).1
          (size_t_of_int (vsnprintf_text 513 [104, 105]).2) < 2 ^ 31) ∧
    dprintf (-7) vsnprintf_text sys_write_all 2 [104, 105] =
        (sys_write_all 2 (vsnprintf_text 513 [104, 105]).1
            (size_t_of_int (vsnprintf_text 513 [104, 105]).2),
         [{ fd := 2, buf := (vsnprintf_text 513 [104, 105]).1,
            sz := size_t_of_int (vsnprintf_text 513 [104, 105]).2 }]) ∧
    dprintf (-7) vsnprintf_text sys_write_all 2 [104, 105] =
      (2, [{ fd := 2, buf := [104, 105, 0], sz := 2 }]) ∧
    printf (-7) vsnprintf_text sys_write_all [104, 105] =
      (2, [{ fd := 1, buf := [104, 105, 0], sz := 2 }]) ∧
    (513 ≤ size_t_of_int (vsnprintf_text 513 (List.replicate 513 97)).2 ∧
      (dprintf (-7) vsnprintf_text sys_write_all 2 (List.replicate 513 97)).1 = -7 ∧
      (dprintf (-7) vsnprintf_text sys_write_all 2 (List.replicate 513 97)).2 = []) :=
  ⟨⟨by decide, by decide, by decide, by decide⟩,
   (C9_dprintf (-7) vsnprintf_text sys_write_all 2 [104, 105] (by decide)).2.2.1
     (by decide) (by decide) (by decide),
   by decide, by decide,
   have h : 513 ≤ size_t_of_int (vsnprintf_text 513 (List.replicate 513 97)).2 := by
     simp only [vsnprintf_text, List.length_replicate, size_t_of_int]
     decide
   ⟨h, (C9_dprintf (-7) vsnprintf_text sys_write_all 2 (List.replicate 513 97)
     (by decide)).1.mpr h⟩⟩

/-- C9 fails as stated. For a two-byte string, `dprintf(2, ...)` calls
`sys_write(2, buf, 2)` once; when that call returns `2^32 + 5`, `dprintf`
returns 5, the value converted to `int`, and not the result of
`sys_write`; `printf` does the same. -/
theorem C9_counterexample :
    size_t_of_int (vsnprintf_text 513 [104, 105]).2 = 2 ∧
    (dprintf (-7) vsnprintf_text sys_write_big 2 [104, 105]).2 =
      [{ fd := 2, buf := [104, 105, 0], sz := 2 }] ∧
    sys_write_big 2 [104, 105, 0] 2 = 4294967301 ∧
    (dprintf (-7) vsnprintf_text sys_write_big 2 [104, 105]).1 = 5 ∧
    (printf (-7) vsnprintf_text sys_write_big [104, 105]).1 = 5 := by
  decide
